import Mathlib

/-!
Verification of the auto-memory extraction and persistence pipeline
(`auto_memory_filter.py`): a shallow embedding of its event classification,
list validation, storage routing, rich-API store with deduplication,
direct SQLite store, chat-to-user resolution, and LLM query fallback
behaviour, together with theorems settling the specified properties.
-/

namespace AutoMemory

/-! ## Rich Memory Adapter (`_store_memory_with_api`)

The adapter first runs the host's `query_memory` capability (when bound) to
look for near-duplicates, then inserts via `add_memory`.  The query's result
is consumed as `list(related)`; the code requires at least 4 components and
reads `related_list[3][1][0]` as the list of distances.  We model the
observable outcomes of that interaction. -/

/-- Structural exceptions caught by the adapter's dedicated handler
(`except (TypeError, AttributeError, IndexError)`). -/
inductive StructErr
  | typeError
  | attributeError
  | indexError
deriving DecidableEq

/-- Shape of a query response that did not raise:
`falsy` models a falsy `related` value; `short` models `list(related)` having
fewer than 4 components; `emptyField` models `related_list[3][1]` being falsy
(so `distances` is set to `[]`); `distances ds` models
`related_list[3][1][0]` being the list `ds` of neighbor distances. -/
inductive QueryShape
  | falsy
  | short
  | emptyField
  | distances (ds : List ℚ)
deriving DecidableEq

/-- Observable outcome of one `_store_memory_with_api` call:
whether the `add_memory` insert call occurred, and the boolean the
method returned (`true` = fact reported saved). -/
structure StoreOutcome where
  insertAttempted : Bool
  returned : Bool
deriving DecidableEq

/-- The duplicate test the code applies to a non-raising query response:
`any(d < self.valves.related_memories_dist for d in distances)`, where
`distances` is `[]` unless the response carried the 4-component shape with
a truthy distance field. -/
def dupFound (t : ℚ) : QueryShape → Bool
  | .distances ds => ds.any fun d => decide (d < t)
  | _ => false

/-- Embedding of `_store_memory_with_api`.  `queryCap`/`addCap` model
whether `query_memory`/`add_memory` are bound; `q` is the query call's
result (`Except.error` = the call or the shape access raised a structural
error); `addOk` models whether the `add_memory` call itself succeeds
(when it raises, the surrounding handler catches and the method returns
`False`).  The single `try` block wraps both the query and the insert, so a
raising query reaches the handler and falls through to `return False`
without attempting the insert. -/
def storeMemoryWithApi (queryCap addCap : Bool) (t : ℚ)
    (q : Except StructErr QueryShape) (addOk : Bool) : StoreOutcome :=
  if queryCap then
    match q with
    | .error _ => ⟨false, false⟩
    | .ok shape =>
      if dupFound t shape then ⟨false, true⟩
      else if addCap then ⟨true, addOk⟩ else ⟨false, false⟩
  else if addCap then ⟨true, addOk⟩ else ⟨false, false⟩

/-! ## List Validator (`_is_valid_memory_list`)

The validator first checks that the raw text starts with `[` and ends with
`]`, then runs `ast.literal_eval` and requires the result to be a non-empty
Python list whose elements are all strings.  Raw text is modelled as
`List Char`; `literalEval` below embeds the fragment of `ast.literal_eval`
the pipeline can meet: string literals (both quote characters, the common
escapes), integers, booleans, `None`, nested lists with optional trailing
comma, and surrounding whitespace. -/

/-- A parsed Python literal (the fragment relevant to the validator). -/
inductive PyLit
  | str (s : String)
  | int (n : Int)
  | bool (b : Bool)
  | none
  | list (xs : List PyLit)

/-- The single-quote character, as used by Python string literals. -/
def sq : Char := Char.ofNat 39

/-- Whitespace skipped around Python literal tokens. -/
def skipWs : List Char → List Char
  | [] => []
  | c :: cs =>
    if c = ' ' ∨ c = '\t' ∨ c = '\n' ∨ c = '\r' then skipWs cs else c :: cs

/-- Parse the body of a Python string literal delimited by quote `q`
(the opening quote already consumed), handling the escapes
`\n`, `\t`, `\\`, `\'`, `\"`.  Returns the content and the remainder. -/
def parseStrBody (q : Char) : List Char → Option (List Char × List Char)
  | [] => Option.none
  | c :: cs =>
    if c = q then some ([], cs)
    else if c = '\\' then
      match cs with
      | [] => Option.none
      | e :: cs' =>
        let ec : Option Char :=
          if e = 'n' then some '\n'
          else if e = 't' then some '\t'
          else if e = '\\' then some '\\'
          else if e = sq then some sq
          else if e = '"' then some '"'
          else Option.none
        match ec with
        | Option.none => Option.none
        | some ch =>
          match parseStrBody q cs' with
          | Option.none => Option.none
          | some (body, rest) => some (ch :: body, rest)
    else
      match parseStrBody q cs with
      | Option.none => Option.none
      | some (body, rest) => some (c :: body, rest)

/-- Take a maximal run of decimal digits. -/
def takeDigits : List Char → List Char × List Char
  | [] => ([], [])
  | c :: cs =>
    if c.isDigit then
      let (ds, rest) := takeDigits cs
      (c :: ds, rest)
    else ([], c :: cs)

/-- Decimal value of a digit run. -/
def digitsToNat : List Char → Nat
  | [] => 0
  | c :: cs => digitsToNat cs + c.toNat.sub 48 * 10 ^ cs.length

/-- Drop `p` from the head of `cs` when `cs` starts with it. -/
def dropLead : List Char → List Char → Option (List Char)
  | [], cs => some cs
  | _, [] => Option.none
  | p :: ps, c :: cs => if c = p then dropLead ps cs else Option.none

mutual

/-- Parse one Python literal value (fuel-indexed recursive descent). -/
def parseVal : Nat → List Char → Option (PyLit × List Char)
  | 0, _ => Option.none
  | fuel + 1, cs =>
    match skipWs cs with
    | [] => Option.none
    | c :: rest =>
      if c = '"' ∨ c = sq then
        match parseStrBody c rest with
        | some (body, r) => some (.str ⟨body⟩, r)
        | Option.none => Option.none
      else if c = '[' then
        match parseItems fuel rest with
        | some (xs, r) => some (.list xs, r)
        | Option.none => Option.none
      else if c = '-' then
        match takeDigits rest with
        | ([], _) => Option.none
        | (ds, r) => some (.int (-(digitsToNat ds : Int)), r)
      else if c.isDigit then
        match takeDigits (c :: rest) with
        | ([], _) => Option.none
        | (ds, r) => some (.int (digitsToNat ds : Int), r)
      else if c = 'T' then
        (dropLead ['r', 'u', 'e'] rest).map fun r => (.bool true, r)
      else if c = 'F' then
        (dropLead ['a', 'l', 's', 'e'] rest).map fun r => (.bool false, r)
      else if c = 'N' then
        (dropLead ['o', 'n', 'e'] rest).map fun r => (.none, r)
      else Option.none

/-- Parse the items of a list literal, the opening `[` already consumed;
accepts an optional trailing comma. -/
def parseItems : Nat → List Char → Option (List PyLit × List Char)
  | 0, _ => Option.none
  | fuel + 1, cs =>
    match skipWs cs with
    | ']' :: r => some ([], r)
    | cs' =>
      match parseVal fuel cs' with
      | Option.none => Option.none
      | some (v, r1) =>
        match skipWs r1 with
        | ']' :: r => some ([v], r)
        | ',' :: r =>
          match parseItems fuel r with
          | some (vs, r') => some (v :: vs, r')
          | Option.none => Option.none
        | _ => Option.none

end

/-- Embedding of `ast.literal_eval` on the modelled fragment: parse one
literal surrounded by optional whitespace; anything else is a parse
failure (`SyntaxError`/`ValueError` in the source, i.e. `Option.none`). -/
def literalEval (cs : List Char) : Option PyLit :=
  match parseVal (cs.length + 1) cs with
  | some (v, r) => if skipWs r = [] then some v else Option.none
  | Option.none => Option.none

/-- Whether a parsed literal is a string. -/
def PyLit.isStr : PyLit → Bool
  | .str _ => true
  | _ => false

/-- Embedding of `_is_valid_memory_list`: the text must start with `[` and
end with `]` (`memories.startswith`/`endswith`), then `ast.literal_eval`
must yield a list, the list must be non-empty, and all its items must be
strings; any parse failure is rejected. -/
def isValidMemoryList (cs : List Char) : Bool :=
  (cs.head? = some '[' : Bool) && (cs.getLast? = some ']' : Bool) &&
    match literalEval cs with
    | some (.list xs) => !xs.isEmpty && xs.all PyLit.isStr
    | some _ => false
    | Option.none => false

/-- The spec's acceptance predicate, stated from its words alone: the text
is syntactically a list literal whose elements are all strings and which is
non-empty (under the same modelled `ast.literal_eval` fragment). -/
def specNonEmptyStringList (cs : List Char) : Bool :=
  match literalEval cs with
  | some (.list xs) => !xs.isEmpty && xs.all PyLit.isStr
  | some _ => false
  | Option.none => false

/-! ## Event Intake / Dispatcher (`outlet`)

`outlet(body, __event_emitter__, user=None, request=None)` classifies the
event and runs the live extraction pipeline or spawns the background task.
The event body is modelled by the fields the code reads; the pipeline
methods it calls (`Users.get_user_by_id`, `identify_memories`,
`process_memories`, `__event_emitter__`) are oracles whose raising is
modelled with `Except`. -/

/-- A Python exception escaping a called component. -/
inductive PyExc
  | exc

/-- One chat turn, as read by the dispatcher (`msg.get("role")`,
`msg.get("content")`). -/
structure Message where
  role : String
  content : String
deriving DecidableEq

/-- The event body dict: whether the `"chat_id"` key is present, the value
of the `"messages"` key when present, and whether any other key makes the
dict truthy. -/
structure Body where
  hasChatId : Bool
  messagesField : Option (List Message)
  otherKeys : Bool
deriving DecidableEq

/-- Python truthiness of the body dict (`not body` is `False` iff the dict
has at least one key). -/
def bodyTruthy (b : Body) : Bool :=
  b.hasChatId || b.messagesField.isSome || b.otherKeys

/-- The user context dict, with its per-user valves already read out
(`user.get("valves", {}).get("enabled", True)` and `"show_status"`). -/
structure UserCtx where
  id : String
  enabled : Bool
  showStatus : Bool
deriving DecidableEq

/-- Results of the calls made inside the live path's `try` block. -/
structure Pipeline where
  /-- `Users.get_user_by_id(user["id"])` (or the `None` fallback). -/
  getUser : Except PyExc Unit
  /-- `identify_memories(...)`: raw text from the extractor. -/
  identify : Except PyExc (List Char)
  /-- `process_memories(...)`: `(overall_success, saved, failed)`. -/
  store : Except PyExc (Bool × Nat × Nat)
  /-- `__event_emitter__({"type": "status", ...})`. -/
  emit : Except PyExc Unit

/-- How the dispatcher disposed of the event: returned untouched without
further work, spawned the supervised background task, or entered the live
extraction block. -/
inductive Disposition
  | passthrough
  | backgroundTask
  | liveExtract
deriving DecidableEq

/-- Observable outcome of one `outlet` call: the returned body, the
disposition, and whether `process_memories` was invoked. -/
structure OutletOut where
  ret : Body
  disp : Disposition
  storeCalled : Bool
deriving DecidableEq

/-- The live path's `try` block (`outlet` lines 219–247): look up the user
object, extract, validate, store, emit status; every raising oracle is
caught by the enclosing `except Exception` handler and the body is still
returned. -/
def liveTryBlock (p : Pipeline) (body : Body) : OutletOut :=
  match p.getUser with
  | .error _ => ⟨body, .liveExtract, false⟩
  | .ok _ =>
    match p.identify with
    | .error _ => ⟨body, .liveExtract, false⟩
    | .ok raw =>
      if isValidMemoryList raw then
        match p.store with
        | .error _ => ⟨body, .liveExtract, true⟩
        | .ok _ =>
          match p.emit with
          | _ => ⟨body, .liveExtract, true⟩
      else ⟨body, .liveExtract, false⟩

/-- Embedding of `outlet`.  Follows the source's control flow: the global
`enabled` valve; the `is_chat_completed` classification
(`(not user or not request) and body and "chat_id" in body and
"messages" in body`) spawning the background task when the message list is
non-empty; otherwise the live section guarded by user presence, body
truthiness, a non-empty `body.get("messages", [])`, the per-user enable
valve, `len(messages) >= 2 and self.valves.auto_save_user`, and the
second-to-last message having role `"user"`; the extraction block's
`try`/`except` catches every oracle failure and the body is returned in
every branch. -/
def outlet (enabled autoSave : Bool) (body : Body) (user : Option UserCtx)
    (request : Option Unit) (p : Pipeline) : OutletOut :=
  if !enabled then ⟨body, .passthrough, false⟩
  else
    let isChatCompleted :=
      (user.isNone || request.isNone) && bodyTruthy body &&
        body.hasChatId && body.messagesField.isSome
    if isChatCompleted then
      match body.messagesField with
      | some ms =>
        if ms.isEmpty then ⟨body, .passthrough, false⟩
        else ⟨body, .backgroundTask, false⟩
      | Option.none => ⟨body, .passthrough, false⟩
    else if user.isNone || !bodyTruthy body then ⟨body, .passthrough, false⟩
    else
      let ms := body.messagesField.getD []
      if ms.isEmpty then ⟨body, .passthrough, false⟩
      else
        match user with
        | Option.none => ⟨body, .passthrough, false⟩
        | some u =>
          if !u.enabled then ⟨body, .passthrough, false⟩
          else if 2 ≤ ms.length && autoSave then
            match ms.get? (ms.length - 2) with
            | some m =>
              if m.role = "user" then liveTryBlock p body
              else ⟨body, .passthrough, false⟩
            | Option.none => ⟨body, .passthrough, false⟩
          else ⟨body, .passthrough, false⟩

/-- Embedding of `_safe_process_completed_chat`: the background task body
is wrapped in `try`/`except Exception`, so whatever the inner processing
does, the task itself completes without an escaping exception. -/
def safeProcessCompletedChat (inner : Except PyExc Unit) : Except PyExc Unit :=
  match inner with
  | .ok _ => .ok ()
  | .error _ => .ok ()

/-- Condition under which `outlet` spawns the background task, written out
from the code: globally enabled, user or request context missing, the
`"chat_id"` key present, and the `"messages"` key present with a non-empty
list. -/
def bgCond (enabled : Bool) (body : Body) (user : Option UserCtx)
    (request : Option Unit) : Bool :=
  enabled && (user.isNone || request.isNone) && body.hasChatId &&
    (match body.messagesField with
     | some ms => !ms.isEmpty
     | Option.none => false)

/-- Condition under which `outlet` enters the live extraction block,
written out from the code: globally enabled, user context present with the
per-user valve enabled, the event not classified as chat-completed (request
present, or no `"chat_id"` key), at least two messages with the
second-to-last authored by the user, and the auto-save valve on. -/
def liveCond (enabled autoSave : Bool) (body : Body) (user : Option UserCtx)
    (request : Option Unit) : Bool :=
  enabled &&
    (match user with | some u => u.enabled | Option.none => false) &&
    (request.isSome || !body.hasChatId) &&
    (match body.messagesField with
     | some ms =>
       (decide (2 ≤ ms.length)) &&
         (match ms.get? (ms.length - 2) with
          | some m => decide (m.role = "user")
          | Option.none => false)
     | Option.none => false) &&
    autoSave

/-- A concrete pipeline whose calls all succeed (used by concrete
instantiations below). -/
def pipeOk : Pipeline :=
  { getUser := .ok ()
    identify := .ok ('[' :: ']' :: [])
    store := .ok (true, 1, 0)
    emit := .ok () }

/-! ## Storage Router (`process_memories`)

`process_memories(memories, user, request, user_id)` parses the raw text,
then iterates over the parsed list: non-string items count as failures;
string facts are routed to the rich adapter when
`add_memory and user and request` is truthy, else to the direct adapter
when `user_id` is truthy, else the batch aborts.  The parse step and the
per-fact store outcomes are modelled as inputs; the adapter calls actually
made are recorded as a trace alongside the returned triple. -/

/-- An element of the parsed memory list. -/
inductive PyItem
  | str (s : String)
  | nonStr
deriving DecidableEq

/-- Whether a parsed item is a string fact. -/
def PyItem.isStr : PyItem → Bool
  | .str _ => true
  | .nonStr => false

/-- The capability/context values `process_memories` reads (loop-invariant
within one call): whether `add_memory` is bound, truthiness of the `user`
and `request` arguments, and the optional raw `user_id` (Python-falsy when
empty). -/
structure StoreEnv where
  apiBound : Bool
  userOk : Bool
  reqOk : Bool
  userId : Option String
deriving DecidableEq

/-- `add_memory and user and request`: the rich-adapter route condition. -/
def richCond (env : StoreEnv) : Bool :=
  env.apiBound && env.userOk && env.reqOk

/-- `elif user_id:`: the direct-adapter route condition (an empty string is
falsy). -/
def directCond (env : StoreEnv) : Bool :=
  match env.userId with
  | some s => !s.isEmpty
  | Option.none => false

/-- Outcome of one per-fact store attempt: the adapter returned `True`,
returned `False`, or raised (caught by the loop's `except Exception`). -/
inductive AttemptRes
  | okTrue
  | okFalse
  | raised
deriving DecidableEq

/-- Which adapter a fact was sent to. -/
inductive Adapter
  | rich
  | direct
deriving DecidableEq

/-- Result of the `process_memories` parse step (`ast.literal_eval` plus
the `isinstance(memory_list, list)` check). -/
inductive ParsedMemories
  | parseFail
  | nonList
  | list (items : List PyItem)

/-- The router's per-fact loop, returning the `(overall_success,
saved_count, failed_count)` triple: `total` is `len(memory_list)`, `i` the
current index, `saved`/`failed` the accumulators, and `att i` the outcome
of the i-th store attempt.  On a string fact with no storage method
available the loop returns `False, saved, len(memory_list) - saved`. -/
def pmRes (env : StoreEnv) (att : Nat → AttemptRes) (total : Nat) :
    List PyItem → Nat → Nat → Nat → Bool × Nat × Nat
  | [], _, saved, failed => (failed == 0, saved, failed)
  | .nonStr :: rest, i, saved, failed =>
    pmRes env att total rest (i + 1) saved (failed + 1)
  | .str _ :: rest, i, saved, failed =>
    if richCond env then
      match att i with
      | .okTrue => pmRes env att total rest (i + 1) (saved + 1) failed
      | _ => pmRes env att total rest (i + 1) saved (failed + 1)
    else if directCond env then
      match att i with
      | .okTrue => pmRes env att total rest (i + 1) (saved + 1) failed
      | _ => pmRes env att total rest (i + 1) saved (failed + 1)
    else (false, saved, total - saved)

/-- The adapter calls the same loop makes, in order, with the index of the
fact each call was made for (a non-string fact is counted failed without
any call; after an abort no further call is made). -/
def pmTrace (env : StoreEnv) : List PyItem → Nat → List (Nat × Adapter)
  | [], _ => []
  | .nonStr :: rest, i => pmTrace env rest (i + 1)
  | .str _ :: rest, i =>
    if richCond env then (i, .rich) :: pmTrace env rest (i + 1)
    else if directCond env then (i, .direct) :: pmTrace env rest (i + 1)
    else []

/-- Embedding of `process_memories`: a parse failure or a non-list result
returns `(False, 0, 0)`; a parsed list runs the per-fact loop. -/
def processMemories (env : StoreEnv) (att : Nat → AttemptRes) :
    ParsedMemories → Bool × Nat × Nat
  | .parseFail => (false, 0, 0)
  | .nonList => (false, 0, 0)
  | .list items => pmRes env att items.length items 0 0 0

/-- The adapter calls made by one `process_memories` call. -/
def processTrace (env : StoreEnv) : ParsedMemories → List (Nat × Adapter)
  | .list items => pmTrace env items 0
  | _ => []

/-! ## Fact Extractor (`_query_llm`)

`_query_llm` posts to the completion endpoint and maps every failure to
the canonical marker `"[]"`.  The JSON payload of a response is modelled by
`Json`; transport outcomes by `HttpResult`. -/

/-- A JSON value, as produced by `response.json()` (numbers as integers;
only ordering-free facts are at stake). -/
inductive Json
  | null
  | bool (b : Bool)
  | num (n : Int)
  | str (s : String)
  | arr (xs : List Json)
  | obj (fields : List (String × Json))

/-- First binding of a key in an object's field list. -/
def jField : List (String × Json) → String → Option Json
  | [], _ => Option.none
  | (k, v) :: fs, key => if k = key then some v else jField fs key

/-- Dict lookup `data[k]`: defined on objects; on any other value the
Python subscript raises, which the caller's handlers turn into the
fallback, so it is modelled as absent. -/
def jGet : Json → String → Option Json
  | .obj fs, k => jField fs k
  | _, _ => Option.none

/-- List index `data[i]`: defined on arrays; anything else raises and is
modelled as absent. -/
def jIdx : Json → Nat → Option Json
  | .arr xs, i => xs.get? i
  | _, _ => Option.none

/-- Python truthiness of a JSON value (`not data["choices"]`). -/
def jTruthy : Json → Bool
  | .null => false
  | .bool b => b
  | .num n => !(n == 0)
  | .str s => !s.isEmpty
  | .arr xs => !xs.isEmpty
  | .obj fs => !fs.isEmpty

/-- The response-shape walk of `_query_llm`: the `"choices" not in data or
not data["choices"]` guard, then `data["choices"][0]["message"]["content"]`;
`Option.none` models every path on which the code returns `"[]"` (missing
key, falsy choices, or a raising subscript caught by the handlers). -/
def extractContent (data : Json) : Option Json :=
  match jGet data "choices" with
  | Option.none => Option.none
  | some choices =>
    if !jTruthy choices then Option.none
    else
      match jIdx choices 0 with
      | Option.none => Option.none
      | some c0 =>
        match jGet c0 "message" with
        | Option.none => Option.none
        | some msg => jGet msg "content"

/-- Transport-level outcome of the HTTP call: a network error
(`aiohttp.ClientError`), a timeout (`asyncio.TimeoutError`), or a response
with a status code and a body whose JSON decoding may itself fail. -/
inductive HttpResult
  | netError
  | timeout
  | response (status : Nat) (body : Except Unit Json)

/-- Embedding of `_query_llm`: statuses 401, 429 and every status `>= 400`
return `"[]"`; a network error, timeout, body-decode failure, or any
failure of the response-shape walk returns `"[]"`; otherwise the first
choice's message content value is returned as-is.  The function is total
(the code ends in `except Exception`) and contains no retry loop. -/
def queryLLM (r : HttpResult) : Json :=
  match r with
  | .netError => .str "[]"
  | .timeout => .str "[]"
  | .response status body =>
    if status == 401 then .str "[]"
    else if status == 429 then .str "[]"
    else if 400 ≤ status then .str "[]"
    else
      match body with
      | .error _ => .str "[]"
      | .ok data =>
        match extractContent data with
        | Option.none => .str "[]"
        | some c => c

/-! ## Chat-to-User Resolver (`_get_user_id_for_chat`) and the background
path (`_process_completed_chat`) -/

/-- Outcome of the `SELECT user_id FROM chat WHERE id = ?` fetch: a row
with its `user_id` value, no row, or a raised `sqlite3.Error`. -/
inductive ChatLookup
  | row (uid : String)
  | noRow
  | dbError (msg : String)

/-- Embedding of `_get_user_id_for_chat`: returns the
`(user_id, error_message)` pair — `(value, None)` for a found row,
`(None, None)` for a missing row, and `(None, "Database error: ...")` when
the store raised. -/
def getUserIdForChat : ChatLookup → Option String × Option String
  | .row uid => (some uid, Option.none)
  | .noRow => (Option.none, Option.none)
  | .dbError m => (Option.none, some ("Database error: " ++ m))

/-- Embedding of `_process_completed_chat` after its initial delay,
counting the store calls performed for the event: an error from the
resolver aborts (0 store calls), a missing user id ends processing (0
store calls; an empty-string id is Python-falsy and ends it too),
otherwise when auto-save is on and there are at least two messages the
most recent user-authored message is processed directly, performing
`directStores` store calls (the direct processing's own count). -/
def processCompletedChat (lookup : ChatLookup) (autoSave : Bool)
    (messages : List Message) (directStores : Nat) : Nat :=
  match getUserIdForChat lookup with
  | (_, some _) => 0
  | (Option.none, Option.none) => 0
  | (some uid, Option.none) =>
    if uid.isEmpty then 0
    else if autoSave && decide (2 ≤ messages.length) then
      match messages.reverse.find? (fun m => m.role == "user") with
      | some _ => directStores
      | Option.none => 0
    else 0

/-! ## Direct Store Adapter (`_save_memory_to_db`)

The adapter generates `str(uuid.uuid4())` and a single `int(time.time())`
read, then inserts `(id, user_id, content, created_at, updated_at)` with
both timestamps set from that one read.  Fresh-id generation is modelled
by a supply handing out strictly increasing values, which determinizes
uuid4's freshness guarantee. -/

/-- A persisted memory row. -/
structure MemoryRow where
  id : Nat
  userId : String
  content : String
  createdAt : Int
  updatedAt : Int
deriving DecidableEq

/-- The fresh-identifier supply (models `uuid.uuid4()` never repeating). -/
structure IdGen where
  next : Nat
deriving DecidableEq

/-- Draw one fresh identifier. -/
def genUuid (g : IdGen) : Nat × IdGen :=
  (g.next, ⟨g.next + 1⟩)

/-- Embedding of `_save_memory_to_db`'s successful insert: one fresh id,
one clock read `now` used for both `created_at` and `updated_at`. -/
def saveMemoryToDb (g : IdGen) (now : Int) (userId content : String) :
    MemoryRow × IdGen :=
  let (i, g') := genUuid g
  ({ id := i, userId := userId, content := content,
     createdAt := now, updatedAt := now }, g')

/-- A sequence of insert calls (each with its own clock reading and
payload), threading the id supply. -/
def saveAll (g : IdGen) : List (Int × String × String) → List MemoryRow × IdGen
  | [] => ([], g)
  | (now, uid, content) :: rest =>
    let (r, g') := saveMemoryToDb g now uid content
    let (rs, g'') := saveAll g' rest
    (r :: rs, g'')

end AutoMemory

namespace AutoMemory

/-- C4 helper fact: the code's `any`-based duplicate test fires exactly when
some listed distance is below the threshold. -/
theorem dupFound_distances (t : ℚ) (ds : List ℚ) :
    dupFound t (.distances ds) = true ↔ ∃ d ∈ ds, d < t := by
  simp [dupFound, List.any_eq_true]

/-- C4: with the query capability present and a non-raising query response,
if the nearest (minimal) returned distance `d` is below the threshold `t`
the adapter performs no insert and reports the fact saved; if `d ≥ t`, or if
no neighbor distance is available at all (falsy response, short response,
falsy distance field, or empty distance list), the insert call occurs. -/
theorem rich_adapter_dedup (t : ℚ) (addOk : Bool) (ds : List ℚ) (d : ℚ)
    (hmem : d ∈ ds) (hmin : ∀ x ∈ ds, d ≤ x) :
    (d < t →
      storeMemoryWithApi true true t (.ok (.distances ds)) addOk =
        ⟨false, true⟩) ∧
    (t ≤ d →
      (storeMemoryWithApi true true t (.ok (.distances ds)) addOk).insertAttempted
        = true) ∧
    (∀ s : QueryShape, dupFound t s = false →
      (storeMemoryWithApi true true t (.ok s) addOk).insertAttempted = true) := by
  refine ⟨?_, ?_, ?_⟩
  · intro hd
    have : dupFound t (.distances ds) = true :=
      (dupFound_distances t ds).mpr ⟨d, hmem, hd⟩
    simp [storeMemoryWithApi, this]
  · intro hd
    have : dupFound t (.distances ds) = false := by
      rw [← Bool.not_eq_true, dupFound_distances]
      rintro ⟨x, hx, hxt⟩
      exact absurd (lt_of_lt_of_le hxt (hd.trans (hmin x hx))) (lt_irrefl x)
    simp [storeMemoryWithApi, this]
  · intro s hs
    simp [storeMemoryWithApi, hs]

/-- C4 witness: threshold `3/4` (the configured default), query returning
distances `[9/10, 1/2]` whose nearest is `1/2 < 3/4`: skip reported saved;
and with nearest `9/10 ≥ 3/4` the insert occurs. -/
theorem rich_adapter_dedup_witness :
    storeMemoryWithApi true true (3/4) (.ok (.distances [9/10, 1/2])) true =
      ⟨false, true⟩ ∧
    (storeMemoryWithApi true true (3/4) (.ok (.distances [9/10])) true).insertAttempted
      = true := by
  constructor
  · exact (rich_adapter_dedup (3/4) true [9/10, 1/2] (1/2)
      (by norm_num) (by intro x hx; fin_cases hx <;> norm_num)).1 (by norm_num)
  · exact (rich_adapter_dedup (3/4) true [9/10] (9/10)
      (by norm_num) (by intro x hx; fin_cases hx <;> norm_num)).2.1 (by norm_num)

/-- C1 counterexample: at the default threshold `3/4`, when the query call
raises a `TypeError` (a structural error), the adapter does NOT proceed to
the insert: no `add_memory` call occurs and the fact is reported failed —
contradicting the claim that the fact is stored despite the dedup-check
failure. -/
theorem dedup_error_blocks_insert_cex :
    (storeMemoryWithApi true true (3/4) (.error .typeError) true).insertAttempted
      = false ∧
    (storeMemoryWithApi true true (3/4) (.error .typeError) true).returned
      = false := by
  exact ⟨rfl, rfl⟩

/-- C1 amended: a non-raising shape mismatch in the query response (falsy
result, fewer than four components, falsy distance field, or empty distance
list) does not block the insert attempt; but a structural error RAISED by
the query call is caught by the adapter's handler and the method returns
`False` without attempting the insert, so the fact is reported failed. -/
theorem dedup_failure_handling (t : ℚ) (addOk : Bool) :
    ((storeMemoryWithApi true true t (.ok .falsy) addOk).insertAttempted = true) ∧
    ((storeMemoryWithApi true true t (.ok .short) addOk).insertAttempted = true) ∧
    ((storeMemoryWithApi true true t (.ok .emptyField) addOk).insertAttempted = true) ∧
    ((storeMemoryWithApi true true t (.ok (.distances [])) addOk).insertAttempted = true) ∧
    (∀ e : StructErr,
      storeMemoryWithApi true true t (.error e) addOk = ⟨false, false⟩) := by
  refine ⟨?_, ?_, ?_, ?_, ?_⟩ <;>
    first
      | simp [storeMemoryWithApi, dupFound]
      | (intro e; simp [storeMemoryWithApi])

/-- The live `try` block always reports the live-extract disposition. -/
theorem liveTryBlock_disp (p : Pipeline) (body : Body) :
    (liveTryBlock p body).disp = .liveExtract := by
  unfold liveTryBlock
  repeat' split
  all_goals rfl

/-- The live `try` block returns the body unchanged. -/
theorem liveTryBlock_ret (p : Pipeline) (body : Body) :
    (liveTryBlock p body).ret = body := by
  unfold liveTryBlock
  repeat' split
  all_goals rfl

set_option maxHeartbeats 1000000 in
/-- Helper: `outlet` spawns the background task exactly under `bgCond`. -/
theorem outlet_bg_iff (enabled autoSave : Bool) (body : Body)
    (user : Option UserCtx) (request : Option Unit) (p : Pipeline) :
    (outlet enabled autoSave body user request p).disp = .backgroundTask ↔
      bgCond enabled body user request = true := by
  rcases body with ⟨hc, mf, othk⟩
  cases enabled
  · simp [outlet, bgCond]
  · rcases user with _ | u <;> rcases request with _ | r <;>
      rcases mf with _ | (_ | ⟨m, ms⟩) <;> cases hc <;> cases othk <;>
      simp only [outlet, bgCond, bodyTruthy] <;>
      (repeat' split) <;> simp_all [liveTryBlock_disp] <;> omega

set_option maxHeartbeats 1000000 in
/-- Helper: `outlet` enters the live extraction block exactly under
`liveCond`. -/
theorem outlet_live_iff (enabled autoSave : Bool) (body : Body)
    (user : Option UserCtx) (request : Option Unit) (p : Pipeline) :
    (outlet enabled autoSave body user request p).disp = .liveExtract ↔
      liveCond enabled autoSave body user request = true := by
  rcases body with ⟨hc, mf, othk⟩
  cases enabled
  · simp [outlet, liveCond]
  · rcases user with _ | u <;> rcases request with _ | r <;>
      rcases mf with _ | (_ | ⟨m, ms⟩) <;> cases hc <;> cases othk <;>
      simp only [outlet, liveCond, bodyTruthy] <;>
      (repeat' split) <;> simp_all [liveTryBlock_disp] <;> omega

/-- A conversation from the spec's scenario: assistant / user / assistant,
with the second-to-last turn user-authored. -/
def scenarioMessages : List Message :=
  [⟨"assistant", "hi"⟩, ⟨"user", "I love hiking"⟩, ⟨"assistant", "nice"⟩]

/-- C2 counterexample: an event carrying user context, a non-empty message
list (second-to-last user-authored), auto-save on, the per-user valve on —
but also a `chat_id` key and NO request context.  The claim routes it to
the Live Path with extraction; the code's `is_chat_completed` test requires
only ONE of user/request to be missing, so it routes it to the Background
Path instead. -/
theorem user_event_routed_background_cex :
    (outlet true true ⟨true, some scenarioMessages, false⟩
        (some ⟨"u1", true, true⟩) Option.none pipeOk).disp =
      Disposition.backgroundTask ∧
    Disposition.backgroundTask ≠ Disposition.liveExtract := by
  exact ⟨rfl, by decide⟩

/-- C2 amended: the Background Path is taken exactly when the pipeline is
enabled, user context OR request context is missing (not necessarily both),
the `chat_id` key is present, and the `messages` key holds a non-empty
list; the live extraction block is entered exactly when the pipeline is
enabled, user context is present with the per-user valve on, the event is
not classified chat-completed (request context present, or no `chat_id`
key), there are at least two messages whose second-to-last has role
`"user"`, and auto-save is on; in every other case the event passes through
untouched. -/
theorem outlet_classification (enabled autoSave : Bool) (body : Body)
    (user : Option UserCtx) (request : Option Unit) (p : Pipeline) :
    ((outlet enabled autoSave body user request p).disp = .backgroundTask ↔
      bgCond enabled body user request = true) ∧
    ((outlet enabled autoSave body user request p).disp = .liveExtract ↔
      liveCond enabled autoSave body user request = true) ∧
    (bgCond enabled body user request = false →
      liveCond enabled autoSave body user request = false →
      (outlet enabled autoSave body user request p).disp = .passthrough) := by
  refine ⟨outlet_bg_iff enabled autoSave body user request p,
    outlet_live_iff enabled autoSave body user request p, ?_⟩
  intro hbg hlive
  rcases hd : (outlet enabled autoSave body user request p).disp
  · rfl
  · exact absurd ((outlet_bg_iff enabled autoSave body user request p).mp hd)
      (by simp [hbg])
  · exact absurd ((outlet_live_iff enabled autoSave body user request p).mp hd)
      (by simp [hlive])

/-- C2 witness: a concrete event with no `chat_id`, no `messages` and no
user context satisfies neither routing condition and passes through. -/
theorem outlet_classification_witness :
    (outlet true true ⟨false, Option.none, true⟩ Option.none Option.none
        pipeOk).disp = .passthrough :=
  (outlet_classification true true ⟨false, Option.none, true⟩ Option.none
    Option.none pipeOk).2.2 rfl rfl

/-- C7: for every input and every behaviour of the extraction, validation,
storage and notification calls — including any of them raising — `outlet`
returns the event body unmodified, and the background task wrapper
`_safe_process_completed_chat` completes without an escaping exception. -/
theorem outlet_exception_containment (enabled autoSave : Bool) (body : Body)
    (user : Option UserCtx) (request : Option Unit) (p : Pipeline) :
    (outlet enabled autoSave body user request p).ret = body ∧
    ∀ inner : Except PyExc Unit, safeProcessCompletedChat inner = .ok () := by
  constructor
  · simp only [outlet]
    repeat' split
    all_goals first | rfl | exact liveTryBlock_ret p _
  · intro inner
    cases inner <;> rfl

/-- Helper: when the extractor's raw output fails validation, the live
`try` block never calls `process_memories`. -/
theorem liveTryBlock_invalid (p : Pipeline) (body : Body) (raw : List Char)
    (hid : p.identify = .ok raw) (hval : isValidMemoryList raw = false) :
    (liveTryBlock p body).storeCalled = false := by
  unfold liveTryBlock
  cases p.getUser <;> simp [hid, hval]

/-- C5 counterexample: the raw text `" ['a']"` (a leading space before the
list literal) parses under `ast.literal_eval` as the non-empty list of
strings `['a']`, yet the validator rejects it because of its
`startswith("[")` precheck — so acceptance is not equivalent to being
syntactically a non-empty list literal of strings. -/
theorem validator_whitespace_cex :
    isValidMemoryList (' ' :: '[' :: sq :: 'a' :: sq :: ']' :: []) = false ∧
    specNonEmptyStringList (' ' :: '[' :: sq :: 'a' :: sq :: ']' :: []) = true :=
  ⟨rfl, rfl⟩

/-- C5 amended: the validator accepts a raw text iff the text starts with
`[`, ends with `]`, AND parses as a non-empty list literal whose elements
are all strings (so a parse-succeeding literal surrounded by whitespace is
rejected); and whenever it rejects the extractor's output, no store call is
made for that turn. -/
theorem validator_characterization :
    (∀ cs : List Char, isValidMemoryList cs =
      ((cs.head? = some '[' : Bool) && ((cs.getLast? = some ']' : Bool) &&
        specNonEmptyStringList cs))) ∧
    (∀ (enabled autoSave : Bool) (body : Body) (user : Option UserCtx)
        (request : Option Unit) (p : Pipeline) (raw : List Char),
      p.identify = .ok raw → isValidMemoryList raw = false →
      (outlet enabled autoSave body user request p).storeCalled = false) := by
  constructor
  · intro cs
    unfold isValidMemoryList specNonEmptyStringList
    rw [Bool.and_assoc]
  · intro enabled autoSave body user request p raw hid hval
    simp only [outlet]
    repeat' split
    all_goals first | rfl | exact liveTryBlock_invalid p _ raw hid hval

/-- C5 witness: the canonical empty-list marker `"[]"` is rejected by the
validator, and a concrete live-path event whose extractor returned `"[]"`
makes no store call. -/
theorem validator_characterization_witness :
    isValidMemoryList ('[' :: ']' :: []) = false ∧
    (outlet true true ⟨false, some scenarioMessages, false⟩
        (some ⟨"u1", true, true⟩) (some ()) pipeOk).storeCalled = false := by
  refine ⟨rfl, ?_⟩
  exact validator_characterization.2 true true ⟨false, some scenarioMessages, false⟩
    (some ⟨"u1", true, true⟩) (some ()) pipeOk ('[' :: ']' :: []) rfl rfl

/-- Helper: loop invariant of the router's accumulators — the final counts
sum to the batch size, and the returned flag is the zero-failure test. -/
theorem pmRes_spec (env : StoreEnv) (att : Nat → AttemptRes) (total : Nat) :
    ∀ (rest : List PyItem) (i saved failed : Nat),
      saved + failed + rest.length = total →
      (pmRes env att total rest i saved failed).2.1 +
          (pmRes env att total rest i saved failed).2.2 = total ∧
      ((pmRes env att total rest i saved failed).1 = true ↔
        (pmRes env att total rest i saved failed).2.2 = 0) := by
  intro rest
  induction rest with
  | nil =>
    intro i saved failed h
    simp only [pmRes, List.length_nil] at h ⊢
    refine ⟨by omega, by simp⟩
  | cons hd tl ih =>
    intro i saved failed h
    have hlen : saved + failed + (tl.length + 1) = total := by
      rw [List.length_cons] at h
      omega
    cases hd with
    | nonStr =>
      simp only [pmRes]
      exact ih (i + 1) saved (failed + 1) (by omega)
    | str s =>
      simp only [pmRes]
      by_cases hr : richCond env = true
      · simp only [hr, if_true]
        cases att i
        · exact ih (i + 1) (saved + 1) failed (by omega)
        · exact ih (i + 1) saved (failed + 1) (by omega)
        · exact ih (i + 1) saved (failed + 1) (by omega)
      · simp only [Bool.not_eq_true] at hr
        simp only [hr, Bool.false_eq_true, if_false]
        by_cases hdc : directCond env = true
        · simp only [hdc, if_true]
          cases att i
          · exact ih (i + 1) (saved + 1) failed (by omega)
          · exact ih (i + 1) saved (failed + 1) (by omega)
          · exact ih (i + 1) saved (failed + 1) (by omega)
        · simp only [Bool.not_eq_true] at hdc
          simp only [hdc, Bool.false_eq_true, if_false]
          refine ⟨by omega, ?_⟩
          simp only [Bool.false_eq_true, false_iff]
          omega

/-- Helper: with a storage method available, the loop makes one adapter
call per string fact, whatever the per-fact outcomes. -/
theorem pmTrace_length (env : StoreEnv)
    (hm : (richCond env || directCond env) = true) :
    ∀ (rest : List PyItem) (i : Nat),
      (pmTrace env rest i).length = rest.countP PyItem.isStr := by
  intro rest
  induction rest with
  | nil => intro i; simp [pmTrace]
  | cons hd tl ih =>
    intro i
    cases hd with
    | nonStr => simp [pmTrace, PyItem.isStr, List.countP_cons, ih (i + 1)]
    | str s =>
      by_cases hr : richCond env = true
      · simp [pmTrace, hr, PyItem.isStr, List.countP_cons, ih (i + 1)]
      · have hrf : richCond env = false := by
          cases hcr : richCond env
          · rfl
          · exact absurd hcr hr
        have hdc : directCond env = true := by
          rw [hrf] at hm
          simpa using hm
        simp [pmTrace, hr, hdc, PyItem.isStr, List.countP_cons, ih (i + 1)]

/-- C3: for every Storage Router batch that parsed to a list, the returned
triple satisfies `saved_count + failed_count = len(batch)` and
`overall_success ↔ failed_count = 0`; and whenever a storage method is
available, every string fact in the batch gets its own store attempt
(so one fact's failure does not stop the remainder). -/
theorem router_batch_counts (env : StoreEnv) (att : Nat → AttemptRes)
    (items : List PyItem) :
    ((processMemories env att (.list items)).2.1 +
        (processMemories env att (.list items)).2.2 = items.length) ∧
    ((processMemories env att (.list items)).1 = true ↔
        (processMemories env att (.list items)).2.2 = 0) ∧
    ((richCond env || directCond env) = true →
      (processTrace env (.list items)).length = items.countP PyItem.isStr) := by
  have h := pmRes_spec env att items.length items 0 0 0 (by simp)
  exact ⟨h.1, h.2, fun hm => pmTrace_length env hm items 0⟩

/-- C3 witness: a batch of one string fact and one non-string item with the
rich route available: counts sum to 2, the flag reflects the failure, and
exactly one store attempt is made. -/
theorem router_batch_counts_witness :
    ((processMemories ⟨true, true, true, some "u1"⟩ (fun _ => .okTrue)
        (.list [.str "a", .nonStr])).2.1 +
      (processMemories ⟨true, true, true, some "u1"⟩ (fun _ => .okTrue)
        (.list [.str "a", .nonStr])).2.2 = 2) ∧
    (processTrace ⟨true, true, true, some "u1"⟩
        (.list [.str "a", .nonStr])).length =
      [PyItem.str "a", PyItem.nonStr].countP PyItem.isStr := by
  have h := router_batch_counts ⟨true, true, true, some "u1"⟩
    (fun _ => .okTrue) [.str "a", .nonStr]
  exact ⟨h.1, h.2.2 rfl⟩

/-- Helper: with the rich route condition true, every adapter call in the
trace is a rich-adapter call. -/
theorem pmTrace_rich (env : StoreEnv) (hr : richCond env = true) :
    ∀ (rest : List PyItem) (i : Nat) (e : Nat × Adapter),
      e ∈ pmTrace env rest i → e.2 = Adapter.rich := by
  intro rest
  induction rest with
  | nil => intro i e he; simp [pmTrace] at he
  | cons hd tl ih =>
    intro i e he
    cases hd with
    | nonStr => exact ih (i + 1) e he
    | str s =>
      simp only [pmTrace, hr, if_true] at he
      rcases List.mem_cons.mp he with rfl | hmem
      · rfl
      · exact ih (i + 1) e hmem

/-- Helper: with the rich route unavailable and the direct route available,
every adapter call in the trace is a direct-adapter call. -/
theorem pmTrace_direct (env : StoreEnv) (hr : richCond env = false)
    (hdc : directCond env = true) :
    ∀ (rest : List PyItem) (i : Nat) (e : Nat × Adapter),
      e ∈ pmTrace env rest i → e.2 = Adapter.direct := by
  intro rest
  induction rest with
  | nil => intro i e he; simp [pmTrace] at he
  | cons hd tl ih =>
    intro i e he
    cases hd with
    | nonStr => exact ih (i + 1) e he
    | str s =>
      simp only [pmTrace, hr, Bool.false_eq_true, if_false, hdc, if_true] at he
      rcases List.mem_cons.mp he with rfl | hmem
      · rfl
      · exact ih (i + 1) e hmem

/-- Helper: with no storage method, the loop saves nothing and fails the
whole batch (aborting at the first string fact, or counting every
non-string item failed). -/
theorem pmRes_noMethod (env : StoreEnv) (att : Nat → AttemptRes)
    (total : Nat) (hr : richCond env = false) (hdc : directCond env = false) :
    ∀ (rest : List PyItem) (i failed : Nat),
      pmRes env att total rest i 0 failed =
        if rest.any PyItem.isStr then (false, 0, total)
        else ((failed + rest.length == 0 : Bool), 0, failed + rest.length) := by
  intro rest
  induction rest with
  | nil => intro i failed; simp [pmRes, PyItem.isStr]
  | cons hd tl ih =>
    intro i failed
    cases hd with
    | nonStr =>
      simp only [pmRes]
      rw [ih (i + 1) (failed + 1)]
      have harith : failed + 1 + tl.length = failed + (tl.length + 1) := by omega
      simp [PyItem.isStr, List.any_cons, harith]
    | str s =>
      simp [pmRes, hr, hdc, PyItem.isStr, List.any_cons]

/-- Helper: with no storage method, no adapter call is ever made. -/
theorem pmTrace_noMethod (env : StoreEnv) (hr : richCond env = false)
    (hdc : directCond env = false) :
    ∀ (rest : List PyItem) (i : Nat), pmTrace env rest i = [] := by
  intro rest
  induction rest with
  | nil => intro i; rfl
  | cons hd tl ih =>
    intro i
    cases hd with
    | nonStr => exact ih (i + 1)
    | str s => simp [pmTrace, hr, hdc]

/-- C8: the routing decision is per-batch: with the rich condition
(`add_memory` bound, user and request truthy) every adapter call of the
batch goes to the Rich Memory Adapter; otherwise with a truthy raw user id
every call goes to the Direct Store Adapter (so no fact is ever sent to
both); and with neither method the batch reports zero successes and the
full batch size as failures, making no adapter call at all. -/
theorem router_single_adapter (env : StoreEnv) (att : Nat → AttemptRes)
    (items : List PyItem) :
    (richCond env = true →
      ∀ e ∈ processTrace env (.list items), e.2 = Adapter.rich) ∧
    (richCond env = false → directCond env = true →
      ∀ e ∈ processTrace env (.list items), e.2 = Adapter.direct) ∧
    (richCond env = false → directCond env = false →
      processMemories env att (.list items) =
        ((items.length == 0 : Bool), 0, items.length) ∧
      processTrace env (.list items) = []) := by
  refine ⟨?_, ?_, ?_⟩
  · intro hr e he
    exact pmTrace_rich env hr items 0 e he
  · intro hr hdc e he
    exact pmTrace_direct env hr hdc items 0 e he
  · intro hr hdc
    constructor
    · show pmRes env att items.length items 0 0 0 = _
      rw [pmRes_noMethod env att items.length hr hdc items 0 0]
      by_cases hany : items.any PyItem.isStr = true
      · have hne : items ≠ [] := by
          rintro rfl
          simp at hany
        have hpos : 0 < items.length := List.length_pos.mpr hne
        have h0 : (items.length == 0 : Bool) = false := by
          simp only [beq_eq_false_iff_ne, ne_eq]
          omega
        simp [hany, h0]
      · simp only [Bool.not_eq_true] at hany
        simp [hany]
    · exact pmTrace_noMethod env hr hdc items 0

/-- C8 witness: a one-fact batch with no storage method at all reports
zero saved, the whole batch failed, and makes no adapter call. -/
theorem router_single_adapter_witness :
    processMemories ⟨false, false, false, Option.none⟩ (fun _ => .okTrue)
        (.list [.str "a"]) = (false, 0, 1) ∧
    processTrace ⟨false, false, false, Option.none⟩ (.list [.str "a"]) = [] := by
  have h := (router_single_adapter ⟨false, false, false, Option.none⟩
    (fun _ => .okTrue) [.str "a"]).2.2 rfl rfl
  exact h

/-- A well-formed completion payload (`{choices: [{message: {content:
...}}]}`) used by the C6 counterexample. -/
def goodPayload : Json :=
  .obj [("choices",
    .arr [.obj [("message", .obj [("content", .str "User enjoys hiking")])]])]

/-- C6 counterexample: a 304 response (not a 2xx status) with a well-formed
body is NOT mapped to the empty-list marker: after the 401/429 checks the
code only tests `status >= 400`, so a sub-400 non-2xx status falls through
and the content is returned. -/
theorem non_2xx_returns_content_cex :
    queryLLM (.response 304 (.ok goodPayload)) = .str "User enjoys hiking" ∧
    Json.str "User enjoys hiking" ≠ Json.str "[]" := by
  refine ⟨rfl, ?_⟩
  intro h
  injection h with h'
  exact absurd h' (by decide)

/-- C6 amended: `_query_llm` never raises and never retries — every call
returns a value, and that value is the canonical empty-list marker `"[]"`
for every failure (authentication 401, rate-limit 429, any status `≥ 400`,
network error, timeout, body-decode failure, or any failure to locate
`choices[0].message.content`); otherwise (status `< 400`, decodable body,
locatable field) the first choice's message content is returned. -/
theorem query_llm_fallback (r : HttpResult) :
    queryLLM r = .str "[]" ∨
    ∃ status data c, r = .response status (.ok data) ∧ status < 400 ∧
      extractContent data = some c ∧ queryLLM r = c := by
  cases r with
  | netError => exact .inl rfl
  | timeout => exact .inl rfl
  | response status body =>
    by_cases h1 : status = 401
    · exact .inl (by simp [queryLLM, h1])
    · by_cases h2 : status = 429
      · exact .inl (by simp [queryLLM, h2])
      · by_cases h4 : 400 ≤ status
        · exact .inl (by simp [queryLLM, h1, h2, h4])
        · cases body with
          | error e => exact .inl (by simp [queryLLM, h1, h2, h4])
          | ok data =>
            cases hc : extractContent data with
            | none => exact .inl (by simp [queryLLM, h1, h2, h4, hc])
            | some c =>
              exact .inr ⟨status, data, c, rfl, by omega,
                hc, by simp [queryLLM, h1, h2, h4, hc]⟩

/-- C9: the Chat-to-User Resolver has exactly the three outcome shapes —
found `(some uid, no error)`, not-found `(none, no error)`, and store-error
`(none, some message)` with the message prefixed `"Database error: "`; an
error outcome never carries a user id; and both the store-error and the
not-found outcomes end the Background Path for the event with zero store
calls. -/
theorem resolver_three_outcomes (lookup : ChatLookup) :
    ((∃ uid, getUserIdForChat lookup = (some uid, Option.none)) ∨
      getUserIdForChat lookup = (Option.none, Option.none) ∨
      ∃ m, getUserIdForChat lookup =
        (Option.none, some ("Database error: " ++ m))) ∧
    (∀ (uid : Option String) (m : String),
      getUserIdForChat lookup = (uid, some m) → uid = Option.none) ∧
    (∀ (autoSave : Bool) (messages : List Message) (ds : Nat) (m : String),
      processCompletedChat (.dbError m) autoSave messages ds = 0) ∧
    (∀ (autoSave : Bool) (messages : List Message) (ds : Nat),
      processCompletedChat .noRow autoSave messages ds = 0) := by
  refine ⟨?_, ?_, ?_, ?_⟩
  · cases lookup with
    | row uid => exact .inl ⟨uid, rfl⟩
    | noRow => exact .inr (.inl rfl)
    | dbError m => exact .inr (.inr ⟨m, rfl⟩)
  · intro uid m h
    cases lookup <;> simp_all [getUserIdForChat]
  · intro a msgs ds m
    rfl
  · intro a msgs ds
    rfl

/-- C9 witness: a concrete locked-database error yields the error outcome
with no user id, and zero store calls for the event. -/
theorem resolver_three_outcomes_witness :
    (Option.none : Option String) = Option.none ∧
    processCompletedChat (.dbError "locked") true scenarioMessages 5 = 0 :=
  ⟨(resolver_three_outcomes (.dbError "locked")).2.1 Option.none
      ("Database error: " ++ "locked") rfl,
    (resolver_three_outcomes (.dbError "locked")).2.2.1 true
      scenarioMessages 5 "locked"⟩

/-- Helper: every row inserted by a run of the direct adapter carries equal
timestamps from its single clock read. -/
theorem saveAll_timestamps (l : List (Int × String × String)) :
    ∀ (g : IdGen), ∀ r ∈ (saveAll g l).1, r.createdAt = r.updatedAt := by
  induction l with
  | nil =>
    intro g r hr
    simp [saveAll] at hr
  | cons hd tl ih =>
    intro g r hr
    obtain ⟨now, uid, content⟩ := hd
    simp only [saveAll, saveMemoryToDb, genUuid] at hr
    rcases List.mem_cons.mp hr with rfl | hr'
    · rfl
    · exact ih _ r hr'

/-- Helper: the supply advances by one per insert and every produced row's
id lies in the half-open range the run consumed. -/
theorem saveAll_id_bounds (l : List (Int × String × String)) :
    ∀ (g : IdGen), (saveAll g l).2.next = g.next + l.length ∧
      ∀ r ∈ (saveAll g l).1, g.next ≤ r.id ∧ r.id < g.next + l.length := by
  induction l with
  | nil => intro g; simp [saveAll]
  | cons hd tl ih =>
    intro g
    obtain ⟨now, uid, content⟩ := hd
    obtain ⟨hnext, hmem⟩ := ih ⟨g.next + 1⟩
    dsimp only at hnext hmem
    constructor
    · simp only [saveAll, saveMemoryToDb, genUuid, hnext, List.length_cons]
      omega
    · intro r hr
      simp only [saveAll, saveMemoryToDb, genUuid] at hr
      rcases List.mem_cons.mp hr with rfl | hr'
      · simp only [List.length_cons]
        omega
      · have := hmem r hr'
        simp only [List.length_cons]
        omega

/-- C10: every row the Direct Store Adapter inserts has
`created_at = updated_at` (one clock read used for both columns) — which is
strictly stronger than the stated `created_at ≤ updated_at` invariant — and
distinct insert calls of a run draw distinct fresh ids, so all produced
rows have pairwise distinct ids. -/
theorem direct_store_fresh_rows (g : IdGen)
    (inserts : List (Int × String × String)) :
    (∀ r ∈ (saveAll g inserts).1,
      r.createdAt = r.updatedAt ∧ r.createdAt ≤ r.updatedAt) ∧
    ((saveAll g inserts).1.Pairwise fun a b => a.id ≠ b.id) := by
  constructor
  · intro r hr
    have h := saveAll_timestamps inserts g r hr
    exact ⟨h, le_of_eq h⟩
  · induction inserts generalizing g with
    | nil => simp [saveAll]
    | cons hd tl ih =>
      obtain ⟨now, uid, content⟩ := hd
      simp only [saveAll, saveMemoryToDb, genUuid]
      refine List.pairwise_cons.mpr ⟨?_, ih ⟨g.next + 1⟩⟩
      intro r hr
      have hb := (saveAll_id_bounds tl ⟨g.next + 1⟩).2 r hr
      dsimp only at hb ⊢
      omega

/-- C10 witness: two concrete inserts of the same content for the same user
produce rows with distinct ids, and the first row's timestamps are equal. -/
theorem direct_store_fresh_rows_witness :
    ((saveAll ⟨0⟩ [(5, "u", "a"), (7, "u", "a")]).1.Pairwise
      fun a b => a.id ≠ b.id) ∧
    (⟨0, "u", "a", 5, 5⟩ : MemoryRow).createdAt =
      (⟨0, "u", "a", 5, 5⟩ : MemoryRow).updatedAt := by
  refine ⟨(direct_store_fresh_rows ⟨0⟩ [(5, "u", "a"), (7, "u", "a")]).2, ?_⟩
  exact ((direct_store_fresh_rows ⟨0⟩ [(5, "u", "a"), (7, "u", "a")]).1
    ⟨0, "u", "a", 5, 5⟩
    (by simp [saveAll, saveMemoryToDb, genUuid])).1

end AutoMemory
